import Mathlib

/-!
Verification development for the financial_analyzer repository.

The durable store (`src/database.py`) is embedded shallowly: an SQLite table
becomes a list of rows, a row is an association list from column name to an
optional value (`none` models SQL NULL / a missing pandas cell), and SQLite's
`INSERT OR REPLACE` keyed by a UNIQUE constraint becomes "remove every
conflicting row, then append the new row".  Numeric cells are modelled as
exact rationals.  The parts of the repository that are not present under
`src/` (the Indicator Processor, the Signal Detector and the data fetcher)
are modelled from the specification text; each such definition carries a
doc comment saying so.
-/

/-- A database cell value: a number, a string, or a calendar date
(dates are modelled as natural numbers, e.g. days since an epoch). -/
inductive Val where
  | num : ℚ → Val
  | str : String → Val
  | date : Nat → Val
deriving DecidableEq, Repr

/-- A stored row: an association list from column name to optional value.
`none` models SQL NULL. -/
abbrev Row := List (String × Option Val)

/-- Column lookup in a row; absent columns read as NULL. -/
def rowGet (r : Row) (k : String) : Option Val :=
  (List.lookup k r).join

/-- The durable store of `src/database.py`: the three tables created by
`Base.metadata.create_all` (`tickers`, `daily_metrics`, `signal_events`). -/
structure DB where
  tickers : List Row
  daily_metrics : List Row
  signal_events : List Row
deriving DecidableEq, Repr

/-- The empty store, as produced by `create_all` on a fresh database. -/
def emptyDB : DB := { tickers := [], daily_metrics := [], signal_events := [] }

/-- `init_db` (database.py line 69): creates the tables if absent.  A missing
store becomes the empty store; an existing store is left unchanged
(`create_all` is a no-op on existing tables). -/
def init_db : Option DB → DB
  | none => emptyDB
  | some db => db

/-- A pandas DataFrame: a list of column names plus one cell-valuation per
row.  Cells of columns outside `columns` read as missing. -/
structure DataFrame where
  columns : List String
  rows : List (String → Option Val)

/-- The fixed column allowlist of `save_daily_metrics`
(database.py line 86). -/
def dmAllowlist : List String :=
  ["ticker", "date", "open", "high", "low", "close", "volume",
   "sma50", "sma200", "price_to_book", "bvps", "enterprise_value"]

/-- Columns of the `u_ticker_date` UNIQUE constraint (database.py line 47). -/
def dmKeys : List String := ["ticker", "date"]

/-- Columns of the `u_signal_unique` UNIQUE constraint
(database.py line 58). -/
def seKeys : List String := ["ticker", "date", "signal_type"]

/-- SQLite UNIQUE-constraint conflict between a new row `a` and a stored row
`b`: every constrained column is non-NULL in both rows and equal (SQLite
treats NULLs as distinct, so a NULL key column never conflicts). -/
def uniqueConflict (keys : List String) (a b : Row) : Bool :=
  keys.all (fun k =>
    match rowGet a k, rowGet b k with
    | some x, some y => decide (x = y)
    | _, _ => false)

/-- A row has all constrained key columns non-NULL. -/
def validKeys (keys : List String) (r : Row) : Bool :=
  keys.all (fun k => (rowGet r k).isSome)

/-- SQLite `INSERT OR REPLACE`: delete every stored row that conflicts with
the incoming row on the UNIQUE constraint, then insert the incoming row. -/
def insertOrReplace (keys : List String) (tbl : List Row) (r : Row) : List Row :=
  tbl.filter (fun e => !uniqueConflict keys r e) ++ [r]

/-- `pd.to_datetime(cell).dt.date` on one cell (database.py line 84): a
missing cell stays missing (NaT), a date value passes through, and any other
value is treated as a malformed date and raises. -/
def normalizeDateCell : Option Val → Except String (Option Val)
  | none => .ok none
  | some (.date d) => .ok (some (.date d))
  | some _ => .error "malformed date"

/-- `df2["date"] = pd.to_datetime(df2["date"]).dt.date` (database.py lines
83-84): when a `date` column exists, normalize it in every row; the whole
call raises if any cell is malformed.  This helper normalizes one row. -/
def normalizeRowDate (r : String → Option Val) :
    Except String (String → Option Val) :=
  match normalizeDateCell (r "date") with
  | .error e => .error e
  | .ok d => .ok (fun c => if c = "date" then d else r c)

/-- `df2["date"] = pd.to_datetime(df2["date"]).dt.date` (database.py lines
83-84): when a `date` column exists, normalize it in every row; the whole
call raises if any cell is malformed. -/
def dfNormalizeDates (df : DataFrame) : Except String DataFrame :=
  if "date" ∈ df.columns then
    match df.rows.mapM normalizeRowDate with
    | .error e => .error e
    | .ok rows2 => .ok { columns := df.columns, rows := rows2 }
  else .ok df

/-- `cols = [c for c in cols if c in df2.columns]` (database.py line 87). -/
def selectCols (df : DataFrame) : List String :=
  dmAllowlist.filter (fun c => c ∈ df.columns)

/-- `df2[cols].to_dict(orient="records")` (database.py lines 88 and 93):
each row projected to the selected columns, as a column-to-value record. -/
def toRecords (df : DataFrame) : List Row :=
  df.rows.map (fun r => (selectCols df).map (fun c => (c, r c)))

/-- The records `save_daily_metrics` sends to SQLite: date normalization
followed by the allowlist projection (database.py lines 82-93). -/
def dmRecords (df : DataFrame) : Except String (List Row) :=
  match dfNormalizeDates df with
  | .error e => .error e
  | .ok df2 => .ok (toRecords df2)

/-- `save_daily_metrics` (database.py lines 74-106), with an explicit
storage-failure oracle: `execFail i` says that the `i`-th `conn.execute`
raises.  The `with conn.begin()` block commits all statements on success and
rolls everything back on any failure, so a failed call returns an error and
the durable state the caller observes is the pre-call state.  Each
statement's column list is built from the record's keys (lines 101-104), so
a record with no keys (a DataFrame with rows but no allowlisted column)
yields the invalid statement `INSERT OR REPLACE INTO daily_metrics ()
VALUES ()`, which the engine rejects with a syntax error, aborting the
transaction. -/
def save_daily_metrics_exec (execFail : Nat → Bool) (db : DB) (df : DataFrame) :
    Except String DB :=
  match dmRecords df with
  | .error e => .error e
  | .ok records =>
    if records.isEmpty then .ok db
    else if records.any (fun r => r.isEmpty) then .error "syntax error"
    else if (List.range records.length).any execFail then .error "storage failure"
    else .ok { db with
      daily_metrics := records.foldl (insertOrReplace dmKeys) db.daily_metrics }

/-- `save_daily_metrics` when every statement executes successfully. -/
def save_daily_metrics (db : DB) (df : DataFrame) : Except String DB :=
  save_daily_metrics_exec (fun _ => false) db df

/-- The durable state visible after a `save_daily_metrics` call: the new
state on commit, the old state after a rollback. -/
def runSaveMetrics (execFail : Nat → Bool) (db : DB) (df : DataFrame) : DB :=
  match save_daily_metrics_exec execFail db df with
  | .ok db2 => db2
  | .error _ => db

/-- An event dict passed to `save_signal_events` (keys `date`,
`signal_type`, `meta`). -/
abbrev EventDict := List (String × Val)

/-- Python `str(...)` as applied to the `meta` payload
(database.py line 123); `str(None)` is `"None"`. -/
def pyStr : Option Val → String
  | none => "None"
  | some (.str s) => s
  | some (.num q) => toString q
  | some (.date d) => toString d

/-- The row inserted for one event (database.py lines 118-123): the ticker
argument, the event's `date` and `signal_type` (NULL when absent), and the
stringified `meta`. -/
def eventToRow (ticker : String) (ev : EventDict) : Row :=
  [("ticker", some (.str ticker)),
   ("date", List.lookup "date" ev),
   ("signal_type", List.lookup "signal_type" ev),
   ("meta", some (.str (pyStr (List.lookup "meta" ev))))]

/-- `save_signal_events` (database.py lines 110-124), with the same
storage-failure oracle and transaction discipline as
`save_daily_metrics_exec`. -/
def save_signal_events_exec (execFail : Nat → Bool) (db : DB) (ticker : String)
    (events : List EventDict) : Except String DB :=
  if (List.range events.length).any execFail then .error "storage failure"
  else .ok { db with
    signal_events :=
      (events.map (eventToRow ticker)).foldl (insertOrReplace seKeys) db.signal_events }

/-- `save_signal_events` when every statement executes successfully. -/
def save_signal_events (db : DB) (ticker : String) (events : List EventDict) :
    Except String DB :=
  save_signal_events_exec (fun _ => false) db ticker events

/-- The durable state visible after a `save_signal_events` call. -/
def runSaveEvents (execFail : Nat → Bool) (db : DB) (ticker : String)
    (events : List EventDict) : DB :=
  match save_signal_events_exec execFail db ticker events with
  | .ok db2 => db2
  | .error _ => db

/-- Modelled from the spec: one raw input bar (`src/data_fetcher.py` and
`src/processor.py` are not under `src/`).  Spec section 3: `{date, open,
high, low, close, volume, price_to_book?, bvps?, enterprise_value?}`,
numeric fields may be absent; the `open` field is spelled `open_` because
`open` is a Lean keyword. -/
structure RawBar where
  date : Nat
  open_ : Option ℚ := none
  high : Option ℚ := none
  low : Option ℚ := none
  close : Option ℚ := none
  volume : Option ℚ := none
  price_to_book : Option ℚ := none
  bvps : Option ℚ := none
  enterprise_value : Option ℚ := none
deriving DecidableEq, Inhabited, Repr

/-- Modelled from the spec: a MetricRecord, all RawBar fields plus the two
nullable moving averages (spec section 3). -/
structure MetricRecord where
  date : Nat
  open_ : Option ℚ := none
  high : Option ℚ := none
  low : Option ℚ := none
  close : Option ℚ := none
  volume : Option ℚ := none
  price_to_book : Option ℚ := none
  bvps : Option ℚ := none
  enterprise_value : Option ℚ := none
  sma50 : Option ℚ := none
  sma200 : Option ℚ := none
deriving DecidableEq, Inhabited, Repr

/-- The trailing window of `n` close cells ending at index `i`:
positions `i+1-n, ..., i` of the close series. -/
def windowVals (closes : List (Option ℚ)) (n i : Nat) : List (Option ℚ) :=
  (List.range n).map (fun k => closes.getD (i + 1 - n + k) none)

/-- Modelled from the spec (`src/processor.py` is not under `src/`): the
simple moving average at index `i` over window size `n` (spec section 4.1):
defined only when `i >= n-1` and `i` is in range, and only when every close
in the trailing window is present; its value is the arithmetic mean of the
window.  A single missing close inside the window makes the result
undefined. -/
def smaAt (closes : List (Option ℚ)) (n i : Nat) : Option ℚ :=
  if n ≤ i + 1 ∧ i < closes.length then
    if (windowVals closes n i).all Option.isSome then
      some (((windowVals closes n i).map (fun x => x.getD 0)).sum / (n : ℚ))
    else none
  else none

/-- Modelled from the spec (`src/processor.py` is not under `src/`): the
Indicator Processor (spec section 4.1) — every RawBar field passes through
unchanged and `sma50`/`sma200` are the trailing means with window sizes 50
and 200. -/
def process_data (raw : List RawBar) : List MetricRecord :=
  let closes := raw.map RawBar.close
  (List.range raw.length).map (fun i =>
    let b := raw.getD i default
    { date := b.date, open_ := b.open_, high := b.high, low := b.low,
      close := b.close, volume := b.volume, price_to_book := b.price_to_book,
      bvps := b.bvps, enterprise_value := b.enterprise_value,
      sma50 := smaAt closes 50 i, sma200 := smaAt closes 200 i })

/-- Modelled from the spec: the golden-cross transition between two
consecutive records (spec section 4.2) — all four averages defined,
`sma50[i-1] <= sma200[i-1]` and `sma50[i] > sma200[i]`. -/
def goldenCond (p c : MetricRecord) : Bool :=
  match p.sma50, p.sma200, c.sma50, c.sma200 with
  | some a, some b, some x, some y => decide (a ≤ b) && decide (y < x)
  | _, _, _, _ => false

/-- Modelled from the spec: the death-cross transition, the mirror
condition `sma50[i-1] >= sma200[i-1]` and `sma50[i] < sma200[i]`. -/
def deathCond (p c : MetricRecord) : Bool :=
  match p.sma50, p.sma200, c.sma50, c.sma200 with
  | some a, some b, some x, some y => decide (b ≤ a) && decide (x < y)
  | _, _, _, _ => false

/-- Modelled from the spec (`src/signals.py` is not under `src/`):
`detect_golden_crossover` — the dates of records whose transition from the
previous record is a golden cross; ineligible indices are skipped. -/
def detect_golden_crossover (s : List MetricRecord) : List Nat :=
  (List.range s.length).filterMap (fun i =>
    match i with
    | 0 => none
    | j + 1 =>
      match s[j]?, s[j + 1]? with
      | some p, some c => if goldenCond p c then some c.date else none
      | _, _ => none)

/-- Modelled from the spec (`src/signals.py` is not under `src/`):
`detect_death_cross`, the mirror detector. -/
def detect_death_cross (s : List MetricRecord) : List Nat :=
  (List.range s.length).filterMap (fun i =>
    match i with
    | 0 => none
    | j + 1 =>
      match s[j]?, s[j + 1]? with
      | some p, some c => if deathCond p c then some c.date else none
      | _, _ => none)

/-- Python `str({})`, the serialized empty `meta` payload of main.py
lines 67 and 69. -/
def emptyMetaStr : String := "\x7b\x7d"

/-- Modelled from the spec: the processed series as the DataFrame handed to
`save_daily_metrics` by `main.run` (main.py line 73) — one row per
MetricRecord carrying the ticker, the date and the numeric fields under the
schema column names. -/
def metricsToDF (ticker : String) (ms : List MetricRecord) : DataFrame :=
  { columns := dmAllowlist,
    rows := ms.map (fun m => fun c =>
      if c = "ticker" then some (.str ticker)
      else if c = "date" then some (.date m.date)
      else if c = "open" then m.open_.map Val.num
      else if c = "high" then m.high.map Val.num
      else if c = "low" then m.low.map Val.num
      else if c = "close" then m.close.map Val.num
      else if c = "volume" then m.volume.map Val.num
      else if c = "sma50" then m.sma50.map Val.num
      else if c = "sma200" then m.sma200.map Val.num
      else if c = "price_to_book" then m.price_to_book.map Val.num
      else if c = "bvps" then m.bvps.map Val.num
      else if c = "enterprise_value" then m.enterprise_value.map Val.num
      else none) }

/-- The event dicts built by `main.run` (main.py lines 65-69): one
`golden_cross` event per golden date, then one `death_cross` event per death
date, each with an empty `meta`. -/
def runEvents (golden death : List Nat) : List EventDict :=
  golden.map (fun d =>
    [("date", Val.date d), ("signal_type", Val.str "golden_cross"),
     ("meta", Val.str emptyMetaStr)]) ++
  death.map (fun d =>
    [("date", Val.date d), ("signal_type", Val.str "death_cross"),
     ("meta", Val.str emptyMetaStr)])

/-- `main.run` (main.py lines 41-87), restricted to its effect on the
durable store: initialize the database, process the fetched series, detect
both crossover kinds, save the metrics and then the events.  The fetched raw
series is a parameter (the network fetcher is an external collaborator);
the JSON export does not touch the store. -/
def run_pipeline (store : Option DB) (ticker : String) (raw : List RawBar) :
    Except String DB :=
  let db := init_db store
  let processed := process_data raw
  let golden := detect_golden_crossover processed
  let death := detect_death_cross processed
  let events := runEvents golden death
  match save_daily_metrics db (metricsToDF ticker processed) with
  | .error e => .error e
  | .ok db1 => save_signal_events db1 ticker events

/-- A row survives a batch when no record of the batch conflicts with it:
`INSERT OR REPLACE` never deletes it. -/
def survives (keys : List String) (R : List Row) (e : Row) : Bool :=
  R.all (fun r => !uniqueConflict keys r e)

/-- The rows of a batch that outlive the whole batch: a record is kept
exactly when no later record of the batch conflicts with it
(last write wins per key). -/
def keepLast (keys : List String) : List Row → List Row
  | [] => []
  | r :: R => if survives keys R r then r :: keepLast keys R else keepLast keys R

/-- A constant 50-bar raw series with close 7, used to exercise Claim C4. -/
def raw50 : List RawBar := List.replicate 50 { date := 0, close := some 7 }

/-- The processed record at index 49 of `raw50`. -/
def mC4 : MetricRecord := ((process_data raw50)[49]?).getD default

/-- The close series of the Claim C5 scenario: 260 days, a single missing
close at index 30, value 1 everywhere else. -/
def gapCloses : List (Option ℚ) :=
  (List.range 260).map (fun j => if j = 30 then none else some 1)

/-- A two-record metric series with a golden cross at the second record,
used to exercise Claim C6. -/
def sC6 : List MetricRecord :=
  [{ date := 10, sma50 := some 1, sma200 := some 2 },
   { date := 20, sma50 := some 3, sma200 := some 2 }]

/-- Concrete single-row metric DataFrame used to exercise Claim C3. -/
def dfC3 : DataFrame :=
  { columns := ["ticker", "date", "close"],
    rows := [fun c =>
      if c = "ticker" then some (.str "BBB")
      else if c = "date" then some (.date 7)
      else if c = "close" then some (.num 3)
      else none] }

/-- The record `save_daily_metrics` derives from `dfC3`. -/
def recC3 : Row :=
  [("ticker", some (.str "BBB")), ("date", some (.date 7)),
   ("close", some (.num 3))]

/-- The store after committing `dfC3` on an empty store. -/
def dbC3 : DB := { tickers := [], daily_metrics := [recC3], signal_events := [] }

/-- A store with one row in every table, used to exercise frame claims. -/
def dbSeed : DB :=
  { tickers := [[("ticker", some (.str "SEED"))]],
    daily_metrics :=
      [[("ticker", some (.str "SEED")), ("date", some (.date 1)),
        ("close", some (.num 1))]],
    signal_events :=
      [[("ticker", some (.str "SEED")), ("date", some (.date 1)),
        ("signal_type", some (.str "golden_cross")),
        ("meta", some (.str "None"))]] }

/-- Concrete single-row metric DataFrame used to exercise Claim C10. -/
def dfC10 : DataFrame :=
  { columns := ["ticker", "date", "close"],
    rows := [fun c =>
      if c = "ticker" then some (.str "CCC")
      else if c = "date" then some (.date 9)
      else if c = "close" then some (.num 4)
      else none] }

/-- The store after committing `dfC10` on top of `dbSeed`. -/
def dbC10m : DB :=
  { dbSeed with
    daily_metrics := dbSeed.daily_metrics ++
      [[("ticker", some (.str "CCC")), ("date", some (.date 9)),
        ("close", some (.num 4))]] }

/-- A concrete event used to exercise Claim C10. -/
def evC10 : EventDict :=
  [("date", Val.date 9), ("signal_type", Val.str "death_cross"),
   ("meta", Val.str emptyMetaStr)]

/-- The store after committing `evC10` on top of `dbSeed`. -/
def dbC10e : DB :=
  { dbSeed with
    signal_events := dbSeed.signal_events ++ [eventToRow "CCC" evC10] }

/-- A one-bar raw series used to exercise Claim C9: the first pipeline run
for a fresh ticker. -/
def rawC9 : List RawBar := [{ date := 1, close := some 1 }]

/-- The daily_metrics row persisted by the pipeline run on `rawC9`. -/
def recC9 : Row :=
  [("ticker", some (.str "RELIANCE.NS")), ("date", some (.date 1)),
   ("open", none), ("high", none), ("low", none),
   ("close", some (.num 1)), ("volume", none), ("sma50", none),
   ("sma200", none), ("price_to_book", none), ("bvps", none),
   ("enterprise_value", none)]

/-- The store produced by the first pipeline run on `rawC9`: note the
`tickers` relation stays empty. -/
def dbC9 : DB := { tickers := [], daily_metrics := [recC9], signal_events := [] }

/-- Concrete single-row metric DataFrame used to exercise Claim C1. -/
def dfC1 : DataFrame :=
  { columns := ["ticker", "date", "close"],
    rows := [fun c =>
      if c = "ticker" then some (.str "AAA")
      else if c = "date" then some (.date 5)
      else if c = "close" then some (.num 10)
      else none] }

/-- The record `save_daily_metrics` derives from `dfC1`. -/
def recC1 : Row :=
  [("ticker", some (.str "AAA")), ("date", some (.date 5)),
   ("close", some (.num 10))]

/-- The store after upserting `dfC1` into an empty store. -/
def dbC1 : DB := { tickers := [], daily_metrics := [recC1], signal_events := [] }

/-- Concrete DataFrames used to exercise Claim C2: same `(ticker, date)`
key, different close payloads. -/
def dfP1 : DataFrame :=
  { columns := ["ticker", "date", "close"],
    rows := [fun c =>
      if c = "ticker" then some (.str "AAA")
      else if c = "date" then some (.date 5)
      else if c = "close" then some (.num 1)
      else none] }

/-- Second payload for the same key, used to exercise Claim C2. -/
def dfP2 : DataFrame :=
  { columns := ["ticker", "date", "close"],
    rows := [fun c =>
      if c = "ticker" then some (.str "AAA")
      else if c = "date" then some (.date 5)
      else if c = "close" then some (.num 2)
      else none] }

/-- The record derived from `dfP1`. -/
def recP1 : Row :=
  [("ticker", some (.str "AAA")), ("date", some (.date 5)),
   ("close", some (.num 1))]

/-- The record derived from `dfP2`. -/
def recP2 : Row :=
  [("ticker", some (.str "AAA")), ("date", some (.date 5)),
   ("close", some (.num 2))]

/-- The store after upserting `dfP1` into an empty store. -/
def dbP1 : DB := { tickers := [], daily_metrics := [recP1], signal_events := [] }

/-- The store after upserting `dfP2` on top of `dbP1`. -/
def dbP2 : DB := { tickers := [], daily_metrics := [recP2], signal_events := [] }

/-! ### Helper lemmas about the UNIQUE-constraint conflict relation -/

theorem uniqueConflict_symm (keys : List String) (a b : Row) :
    uniqueConflict keys a b = uniqueConflict keys b a := by
  unfold uniqueConflict
  induction keys with
  | nil => rfl
  | cons k ks ih =>
    simp only [List.all_cons]
    rw [ih]
    congr 1
    cases rowGet a k <;> cases rowGet b k <;> simp [eq_comm]

theorem uniqueConflict_self (keys : List String) (r : Row)
    (h : validKeys keys r = true) : uniqueConflict keys r r = true := by
  unfold uniqueConflict
  rw [List.all_eq_true]
  intro k hk
  have := (List.all_eq_true.mp h) k hk
  cases hx : rowGet r k with
  | none => rw [hx] at this; simp at this
  | some x => simp [hx]

theorem uniqueConflict_trans (keys : List String) (a b c : Row)
    (h1 : uniqueConflict keys a b = true) (h2 : uniqueConflict keys b c = true) :
    uniqueConflict keys a c = true := by
  unfold uniqueConflict at *
  rw [List.all_eq_true] at *
  intro k hk
  have g1 := h1 k hk
  have g2 := h2 k hk
  cases ha : rowGet a k <;> cases hb : rowGet b k <;> cases hc : rowGet c k <;>
    rw [ha, hb] at g1 <;> rw [hb, hc] at g2 <;> simp_all

/-! ### The `INSERT OR REPLACE` fold on a table -/

theorem survives_cons (keys : List String) (r : Row) (R : List Row) (e : Row) :
    survives keys (r :: R) e = (!uniqueConflict keys r e && survives keys R e) := by
  simp [survives]

theorem foldl_insertOrReplace (keys : List String) (R : List Row) :
    ∀ T : List Row, R.foldl (insertOrReplace keys) T
      = T.filter (survives keys R) ++ keepLast keys R := by
  induction R with
  | nil =>
    intro T
    have h : survives keys [] = fun _ => true := rfl
    simp [keepLast, h, List.filter_true]
  | cons r R ih =>
    intro T
    have h1 : insertOrReplace keys T r
        = T.filter (fun e => !uniqueConflict keys r e) ++ [r] := rfl
    rw [List.foldl_cons, ih, h1, List.filter_append, List.filter_filter]
    have h2 : List.filter (fun a => survives keys R a && !uniqueConflict keys r a) T
        = T.filter (survives keys (r :: R)) :=
      List.filter_congr (fun x _ => by rw [survives_cons, Bool.and_comm])
    rw [h2, keepLast]
    by_cases hs : survives keys R r = true
    · rw [if_pos hs]
      simp [List.filter_cons, hs]
    · rw [if_neg hs]
      have hf : survives keys R r = false := by
        cases hb : survives keys R r
        · rfl
        · exact absurd hb hs
      simp [List.filter_cons, hf]

theorem mem_of_mem_keepLast (keys : List String) (R : List Row) (x : Row)
    (h : x ∈ keepLast keys R) : x ∈ R := by
  induction R with
  | nil => simp [keepLast] at h
  | cons r R ih =>
    rw [keepLast] at h
    by_cases hs : survives keys R r = true
    · rw [if_pos hs] at h
      rcases List.mem_cons.mp h with h | h
      · exact h ▸ List.mem_cons_self r R
      · exact List.mem_cons_of_mem r (ih h)
    · rw [if_neg hs] at h
      exact List.mem_cons_of_mem r (ih h)

theorem survives_false_of_mem (keys : List String) (R : List Row) (r : Row)
    (hmem : r ∈ R) (hself : uniqueConflict keys r r = true) :
    survives keys R r = false := by
  cases hb : survives keys R r
  · rfl
  · have := (List.all_eq_true.mp hb) r hmem
    rw [hself] at this
    simp at this

theorem keepLast_pairwise (keys : List String) (R : List Row) :
    (keepLast keys R).Pairwise (fun a b => uniqueConflict keys a b = false) := by
  induction R with
  | nil => simp [keepLast]
  | cons r R ih =>
    rw [keepLast]
    by_cases hs : survives keys R r = true
    · rw [if_pos hs]
      refine List.Pairwise.cons ?_ ih
      intro b hb
      have hbR : b ∈ R := mem_of_mem_keepLast keys R b hb
      have := (List.all_eq_true.mp hs) b hbR
      have hbr : uniqueConflict keys b r = false := by
        cases hc : uniqueConflict keys b r
        · rfl
        · rw [hc] at this; simp at this
      rw [uniqueConflict_symm]
      exact hbr
    · rw [if_neg hs]
      exact ih

theorem exists_keepLast_conflict (keys : List String) (R : List Row) (x : Row) :
    (∃ r ∈ R, uniqueConflict keys x r = true) →
    ∃ e ∈ keepLast keys R, uniqueConflict keys x e = true := by
  induction R with
  | nil => rintro ⟨r, hr, -⟩; exact absurd hr (List.not_mem_nil r)
  | cons r R ih =>
    rintro ⟨r1, hr1, hc1⟩
    rcases List.mem_cons.mp hr1 with heq | hmem
    · subst heq
      by_cases hs : survives keys R r1 = true
      · refine ⟨r1, ?_, hc1⟩
        rw [keepLast, if_pos hs]
        exact List.mem_cons_self r1 _
      · have hf : survives keys R r1 = false := by
          cases hb : survives keys R r1
          · rfl
          · exact absurd hb hs
        have : ∃ q ∈ R, uniqueConflict keys q r1 = true := by
          by_contra hno
          push_neg at hno
          have : survives keys R r1 = true := by
            rw [survives, List.all_eq_true]
            intro q hq
            have := hno q hq
            cases hc : uniqueConflict keys q r1
            · simp
            · exact absurd hc this
          rw [this] at hf; exact Bool.true_eq_false.mp hf
        rcases this with ⟨q, hq, hcq⟩
        have hxq : uniqueConflict keys x q = true :=
          uniqueConflict_trans keys x r1 q hc1
            (by rw [uniqueConflict_symm]; exact hcq)
        have := ih ⟨q, hq, hxq⟩
        rcases this with ⟨e, he, hce⟩
        refine ⟨e, ?_, hce⟩
        rw [keepLast]
        by_cases hs2 : survives keys R r1 = true
        · rw [if_pos hs2]; exact List.mem_cons_of_mem r1 he
        · rw [if_neg hs2]; exact he
    · rcases ih ⟨r1, hmem, hc1⟩ with ⟨e, he, hce⟩
      refine ⟨e, ?_, hce⟩
      rw [keepLast]
      by_cases hs2 : survives keys R r = true
      · rw [if_pos hs2]; exact List.mem_cons_of_mem r he
      · rw [if_neg hs2]; exact he

theorem countP_le_one_of_pairwise (keys : List String) (x : Row) (l : List Row)
    (h : l.Pairwise (fun a b => uniqueConflict keys a b = false)) :
    l.countP (fun e => uniqueConflict keys x e) ≤ 1 := by
  induction l with
  | nil => simp
  | cons a l ih =>
    rw [List.countP_cons]
    rcases List.pairwise_cons.mp h with ⟨ha, htail⟩
    by_cases hpa : uniqueConflict keys x a = true
    · rw [if_pos hpa]
      have hzero : l.countP (fun e => uniqueConflict keys x e) = 0 := by
        rw [List.countP_eq_zero]
        intro e hel hpe
        have hae : uniqueConflict keys a e = true :=
          uniqueConflict_trans keys a x e
            (by rw [uniqueConflict_symm]; exact hpa) hpe
        rw [ha e hel] at hae
        exact Bool.false_eq_true.mp hae
      omega
    · rw [if_neg hpa]
      have := ih htail
      omega

theorem countP_keepLast_eq_one (keys : List String) (R : List Row) (x : Row)
    (hmem : ∃ r ∈ R, uniqueConflict keys x r = true) :
    (keepLast keys R).countP (fun e => uniqueConflict keys x e) = 1 := by
  have hle := countP_le_one_of_pairwise keys x (keepLast keys R)
    (keepLast_pairwise keys R)
  have hpos : 0 < (keepLast keys R).countP (fun e => uniqueConflict keys x e) := by
    rw [List.countP_pos_iff]
    exact exists_keepLast_conflict keys R x hmem
  omega

theorem countP_filter_survives_eq_zero (keys : List String) (R : List Row)
    (T : List Row) (x : Row) (hx : x ∈ R) :
    (T.filter (survives keys R)).countP (fun e => uniqueConflict keys x e) = 0 := by
  rw [List.countP_eq_zero]
  intro e hel hpe
  have he : survives keys R e = true := (List.mem_filter.mp hel).2
  have := (List.all_eq_true.mp he) x hx
  rw [hpe] at this
  simp at this

theorem foldl_insertOrReplace_replay (keys : List String) (R : List Row)
    (hval : ∀ r ∈ R, uniqueConflict keys r r = true) (T : List Row) :
    R.foldl (insertOrReplace keys) (R.foldl (insertOrReplace keys) T)
      = R.foldl (insertOrReplace keys) T := by
  rw [foldl_insertOrReplace, foldl_insertOrReplace,
    List.filter_append, List.filter_filter]
  have h1 : List.filter (fun a => survives keys R a && survives keys R a) T
      = T.filter (survives keys R) :=
    List.filter_congr (fun x _ => by rw [Bool.and_self])
  have h2 : (keepLast keys R).filter (survives keys R) = [] := by
    rw [List.filter_eq_nil_iff]
    intro a ha
    have haR : a ∈ R := mem_of_mem_keepLast keys R a ha
    rw [survives_false_of_mem keys R a haR (hval a haR)]
    simp
  rw [h1, h2, List.append_nil]
/-! ### Unfolding lemmas for the two save operations -/

theorem rowGet_proj (f : String → Option Val) (k : String) :
    ∀ cols : List String, k ∈ cols →
      rowGet (cols.map (fun c => (c, f c))) k = f k := by
  intro cols
  induction cols with
  | nil => intro h; exact absurd h (List.not_mem_nil k)
  | cons c cs ih =>
    intro h
    by_cases hkc : k = c
    · subst hkc
      simp [rowGet, List.lookup]
    · have hmem : k ∈ cs := by
        rcases List.mem_cons.mp h with h1 | h1
        · exact absurd h1 hkc
        · exact h1
      have hne : (k == c) = false := by simp [hkc]
      simp only [List.map_cons, rowGet, List.lookup, hne]
      exact ih hmem

theorem save_daily_metrics_exec_ok_records (execFail : Nat → Bool) (db : DB)
    (df : DataFrame) (recs : List Row) (hrec : dmRecords df = .ok recs) :
    save_daily_metrics_exec execFail db df
      = (if recs.isEmpty then .ok db
         else if recs.any (fun r => r.isEmpty) then .error "syntax error"
         else if (List.range recs.length).any execFail then
           .error "storage failure"
         else .ok { db with
           daily_metrics := recs.foldl (insertOrReplace dmKeys) db.daily_metrics }) := by
  unfold save_daily_metrics_exec
  rw [hrec]

theorem save_daily_metrics_exec_err_records (execFail : Nat → Bool) (db : DB)
    (df : DataFrame) (e : String) (hrec : dmRecords df = .error e) :
    save_daily_metrics_exec execFail db df = .error e := by
  unfold save_daily_metrics_exec
  rw [hrec]

theorem saveMetrics_exec_frame (execFail : Nat → Bool) (db : DB) (df : DataFrame)
    (db2 : DB) (h : save_daily_metrics_exec execFail db df = .ok db2) :
    db2.tickers = db.tickers ∧ db2.signal_events = db.signal_events := by
  cases hdm : dmRecords df with
  | error e =>
    rw [save_daily_metrics_exec_err_records execFail db df e hdm] at h
    cases h
  | ok recs =>
    rw [save_daily_metrics_exec_ok_records execFail db df recs hdm] at h
    by_cases h1 : recs.isEmpty = true
    · rw [if_pos h1] at h
      cases h
      exact ⟨rfl, rfl⟩
    · rw [if_neg h1] at h
      by_cases h0 : recs.any (fun r => r.isEmpty) = true
      · rw [if_pos h0] at h; cases h
      · rw [if_neg h0] at h
        by_cases h2 : (List.range recs.length).any execFail = true
        · rw [if_pos h2] at h; cases h
        · rw [if_neg h2] at h
          cases h
          exact ⟨rfl, rfl⟩

theorem saveMetrics_exec_dm (execFail : Nat → Bool) (db : DB) (df : DataFrame)
    (recs : List Row) (db2 : DB) (hrec : dmRecords df = .ok recs)
    (h : save_daily_metrics_exec execFail db df = .ok db2) :
    db2.daily_metrics = recs.foldl (insertOrReplace dmKeys) db.daily_metrics := by
  rw [save_daily_metrics_exec_ok_records execFail db df recs hrec] at h
  by_cases h1 : recs.isEmpty = true
  · rw [if_pos h1] at h
    cases h
    have : recs = [] := List.isEmpty_iff.mp h1
    rw [this]
    rfl
  · rw [if_neg h1] at h
    by_cases h0 : recs.any (fun r => r.isEmpty) = true
    · rw [if_pos h0] at h; cases h
    · rw [if_neg h0] at h
      by_cases h2 : (List.range recs.length).any execFail = true
      · rw [if_pos h2] at h; cases h
      · rw [if_neg h2] at h
        cases h
        rfl

theorem saveEvents_exec_frame (execFail : Nat → Bool) (db : DB) (t : String)
    (evs : List EventDict) (db2 : DB)
    (h : save_signal_events_exec execFail db t evs = .ok db2) :
    db2.tickers = db.tickers ∧ db2.daily_metrics = db.daily_metrics := by
  unfold save_signal_events_exec at h
  by_cases h1 : (List.range evs.length).any execFail = true
  · rw [if_pos h1] at h; cases h
  · rw [if_neg h1] at h
    cases h
    exact ⟨rfl, rfl⟩

theorem saveEvents_exec_se (execFail : Nat → Bool) (db : DB) (t : String)
    (evs : List EventDict) (db2 : DB)
    (h : save_signal_events_exec execFail db t evs = .ok db2) :
    db2.signal_events
      = (evs.map (eventToRow t)).foldl (insertOrReplace seKeys) db.signal_events := by
  unfold save_signal_events_exec at h
  by_cases h1 : (List.range evs.length).any execFail = true
  · rw [if_pos h1] at h; cases h
  · rw [if_neg h1] at h
    cases h
    rfl

theorem save_daily_metrics_eq (db : DB) (df : DataFrame) (recs : List Row)
    (hrec : dmRecords df = .ok recs)
    (hne : recs.any (fun r => r.isEmpty) = false) :
    save_daily_metrics db df
      = .ok { db with
          daily_metrics := recs.foldl (insertOrReplace dmKeys) db.daily_metrics } := by
  unfold save_daily_metrics
  rw [save_daily_metrics_exec_ok_records (fun _ => false) db df recs hrec]
  have hany : ((List.range recs.length).any fun _ => false) = false := by simp
  by_cases h1 : recs.isEmpty = true
  · rw [if_pos h1]
    have : recs = [] := List.isEmpty_iff.mp h1
    subst this
    rfl
  · rw [if_neg h1, if_neg (by rw [hne]; exact Bool.false_ne_true),
      if_neg (by rw [hany]; exact Bool.false_ne_true)]

theorem dmConflict_of_keyed (a b : Row) (tk d : Val)
    (h1 : rowGet a "ticker" = some tk) (h2 : rowGet a "date" = some d)
    (h3 : rowGet b "ticker" = some tk) (h4 : rowGet b "date" = some d) :
    uniqueConflict dmKeys a b = true := by
  unfold uniqueConflict dmKeys
  simp [List.all_cons, List.all_nil, h1, h2, h3, h4]

theorem row_nonempty_of_validKey (keys : List String) (r : Row) (k : String)
    (hk : k ∈ keys) (h : validKeys keys r = true) : r.isEmpty = false := by
  unfold validKeys at h
  have hv := (List.all_eq_true.mp h) k hk
  cases r with
  | nil =>
    have hnone : rowGet ([] : Row) k = none := rfl
    rw [hnone] at hv
    simp at hv
  | cons a l => rfl

/-! ### Claim C1 -/

/-- Claim C1: for every ticker and valid metric batch, calling
`save_daily_metrics` twice in succession with the same batch leaves the
store in the same observable state as one call — the replay succeeds,
returns the very same store, and every batch record has exactly one stored
row for its `(ticker, date)` key. -/
theorem claim1_upsert_metrics_idempotent (db db1 : DB) (df : DataFrame)
    (recs : List Row) (hrec : dmRecords df = .ok recs)
    (hval : ∀ r ∈ recs, validKeys dmKeys r = true)
    (h1 : save_daily_metrics db df = .ok db1) :
    save_daily_metrics db1 df = .ok db1 ∧
    ∀ r ∈ recs,
      db1.daily_metrics.countP (fun e => uniqueConflict dmKeys r e) = 1 := by
  have hval' : ∀ r ∈ recs, uniqueConflict dmKeys r r = true :=
    fun r hr => uniqueConflict_self dmKeys r (hval r hr)
  have hne : recs.any (fun r => r.isEmpty) = false := by
    cases hb : recs.any (fun r => r.isEmpty)
    · rfl
    · exfalso
      rcases List.any_eq_true.mp hb with ⟨r, hr, hre⟩
      rw [row_nonempty_of_validKey dmKeys r "ticker" (by decide) (hval r hr)]
        at hre
      cases hre
  have hdm1 : db1.daily_metrics
      = recs.foldl (insertOrReplace dmKeys) db.daily_metrics :=
    saveMetrics_exec_dm (fun _ => false) db df recs db1 hrec h1
  constructor
  · have hsame : recs.foldl (insertOrReplace dmKeys) db1.daily_metrics
        = db1.daily_metrics := by
      rw [hdm1]
      exact foldl_insertOrReplace_replay dmKeys recs hval' db.daily_metrics
    rw [save_daily_metrics_eq db1 df recs hrec hne, hsame]
  · intro r hr
    rw [hdm1, foldl_insertOrReplace, List.countP_append,
      countP_filter_survives_eq_zero dmKeys recs db.daily_metrics r hr,
      countP_keepLast_eq_one dmKeys recs r ⟨r, hr, hval' r hr⟩]

/-- Witness for Claim C1: a concrete one-row batch replayed on the concrete
store it produced. -/
theorem claim1_witness :
    save_daily_metrics dbC1 dfC1 = .ok dbC1 ∧
    dbC1.daily_metrics.countP (fun e => uniqueConflict dmKeys recC1 e) = 1 := by
  have h := claim1_upsert_metrics_idempotent emptyDB dbC1 dfC1 [recC1]
    (by rfl) (by decide) (by rfl)
  exact ⟨h.1, h.2 recC1 (by decide)⟩

/-! ### Claim C2 -/

/-- Claim C2: upserting a row keyed `(t, d)` with payload P1 and then with a
different payload P2 leaves exactly one stored row for that key, and the row
holds P2 — replace, not merge, not reject. -/
theorem claim2_replace_semantics (db db1 db2 : DB) (df1 df2 : DataFrame)
    (r1 r2 : Row) (tk d : Val)
    (hrec1 : dmRecords df1 = .ok [r1])
    (hrec2 : dmRecords df2 = .ok [r2])
    (hk1t : rowGet r1 "ticker" = some tk) (hk1d : rowGet r1 "date" = some d)
    (hk2t : rowGet r2 "ticker" = some tk) (hk2d : rowGet r2 "date" = some d)
    (h1 : save_daily_metrics db df1 = .ok db1)
    (h2 : save_daily_metrics db1 df2 = .ok db2) :
    db2.daily_metrics.filter
      (fun e => decide (rowGet e "ticker" = some tk)
        && decide (rowGet e "date" = some d)) = [r2] := by
  have hdm2 : db2.daily_metrics
      = db1.daily_metrics.filter (fun e => !uniqueConflict dmKeys r2 e) ++ [r2] := by
    have h := saveMetrics_exec_dm (fun _ => false) db1 df2 [r2] db2 hrec2 h2
    rw [h]
    rfl
  rw [hdm2, List.filter_append]
  have hfirst :
      (db1.daily_metrics.filter (fun e => !uniqueConflict dmKeys r2 e)).filter
        (fun e => decide (rowGet e "ticker" = some tk)
          && decide (rowGet e "date" = some d)) = [] := by
    rw [List.filter_eq_nil_iff]
    intro a ha hpa
    have hmem := List.mem_filter.mp ha
    have hnc : uniqueConflict dmKeys r2 a = false := by
      have := hmem.2
      cases hc : uniqueConflict dmKeys r2 a
      · rfl
      · rw [hc] at this; simp at this
    have hpa' : rowGet a "ticker" = some tk ∧ rowGet a "date" = some d := by
      simpa using hpa
    rcases hpa' with ⟨hat', had'⟩
    rw [dmConflict_of_keyed r2 a tk d hk2t hk2d hat' had'] at hnc
    cases hnc
  have hsecond : List.filter
      (fun e => decide (rowGet e "ticker" = some tk)
        && decide (rowGet e "date" = some d)) [r2] = [r2] := by
    simp [List.filter, hk2t, hk2d]
  rw [hfirst, hsecond, List.nil_append]

/-- Witness for Claim C2: payload close=1 then close=2 for the key
`("AAA", date 5)`; one row remains and it holds close=2. -/
theorem claim2_witness :
    dbP2.daily_metrics.filter
      (fun e => decide (rowGet e "ticker" = some (Val.str "AAA"))
        && decide (rowGet e "date" = some (Val.date 5))) = [recP2] :=
  claim2_replace_semantics emptyDB dbP1 dbP2 dfP1 dfP2 recP1 recP2
    (Val.str "AAA") (Val.date 5) (by rfl) (by rfl) (by decide) (by decide)
    (by decide) (by decide) (by rfl) (by rfl)

/-! ### Claim C3 -/

/-- Claim C3: each call to `save_daily_metrics` or `save_signal_events`
runs its whole batch inside a single transaction — on any failure no record
of the batch is committed and the previously committed store is unchanged;
on success every (valid-keyed) record of the batch is committed. -/
theorem claim3_batch_transaction (execFail : Nat → Bool) (db : DB)
    (df : DataFrame) (t : String) (evs : List EventDict) :
    (∀ e, save_daily_metrics_exec execFail db df = .error e →
      runSaveMetrics execFail db df = db) ∧
    (∀ db2 recs, save_daily_metrics_exec execFail db df = .ok db2 →
      dmRecords df = .ok recs →
      ∀ r ∈ recs, validKeys dmKeys r = true →
        ∃ row ∈ db2.daily_metrics, uniqueConflict dmKeys r row = true) ∧
    (∀ e, save_signal_events_exec execFail db t evs = .error e →
      runSaveEvents execFail db t evs = db) ∧
    (∀ db2, save_signal_events_exec execFail db t evs = .ok db2 →
      ∀ ev ∈ evs, validKeys seKeys (eventToRow t ev) = true →
        ∃ row ∈ db2.signal_events,
          uniqueConflict seKeys (eventToRow t ev) row = true) := by
  refine ⟨?_, ?_, ?_, ?_⟩
  · intro e h
    unfold runSaveMetrics
    rw [h]
  · intro db2 recs hok hrec r hr hvr
    have hdm : db2.daily_metrics
        = recs.foldl (insertOrReplace dmKeys) db.daily_metrics :=
      saveMetrics_exec_dm execFail db df recs db2 hrec hok
    have hself : uniqueConflict dmKeys r r = true :=
      uniqueConflict_self dmKeys r hvr
    rcases exists_keepLast_conflict dmKeys recs r ⟨r, hr, hself⟩ with ⟨row, hrow, hc⟩
    refine ⟨row, ?_, hc⟩
    rw [hdm, foldl_insertOrReplace]
    exact List.mem_append_right _ hrow
  · intro e h
    unfold runSaveEvents
    rw [h]
  · intro db2 hok ev hev hvr
    have hse : db2.signal_events
        = (evs.map (eventToRow t)).foldl (insertOrReplace seKeys)
            db.signal_events :=
      saveEvents_exec_se execFail db t evs db2 hok
    have hself : uniqueConflict seKeys (eventToRow t ev) (eventToRow t ev) = true :=
      uniqueConflict_self seKeys (eventToRow t ev) hvr
    have hmem : eventToRow t ev ∈ evs.map (eventToRow t) :=
      List.mem_map_of_mem (eventToRow t) hev
    rcases exists_keepLast_conflict seKeys (evs.map (eventToRow t))
      (eventToRow t ev) ⟨eventToRow t ev, hmem, hself⟩ with ⟨row, hrow, hc⟩
    refine ⟨row, ?_, hc⟩
    rw [hse, foldl_insertOrReplace]
    exact List.mem_append_right _ hrow

/-- Witness for Claim C3: a storage failure on a concrete one-row batch
leaves the concrete store unchanged, and a successful call commits the
record. -/
theorem claim3_witness :
    runSaveMetrics (fun _ => true) emptyDB dfC3 = emptyDB ∧
    dbC3.daily_metrics.any (fun row => uniqueConflict dmKeys recC3 row) = true := by
  constructor
  · exact (claim3_batch_transaction (fun _ => true) emptyDB dfC3 "BBB" []).1
      "storage failure" (by rfl)
  · exact List.any_eq_true.mpr
      ((claim3_batch_transaction (fun _ => false) emptyDB dfC3 "BBB" []).2.1
        dbC3 [recC3] (by rfl) (by rfl) recC3 (by decide) (by decide))

/-! ### Claim C7 -/

/-- Claim C7: an empty input never errors — the Processor and both
Detectors return empty sequences on an empty series, and saving an empty
batch after `initialize()` is a no-op that leaves the store unchanged and
raises no error. -/
theorem claim7_empty_input_no_error (store : Option DB) (t : String)
    (cols : List String) :
    process_data [] = [] ∧
    detect_golden_crossover [] = [] ∧
    detect_death_cross [] = [] ∧
    save_daily_metrics (init_db store) { columns := cols, rows := [] }
      = .ok (init_db store) ∧
    save_signal_events (init_db store) t [] = .ok (init_db store) := by
  refine ⟨rfl, rfl, rfl, ?_, rfl⟩
  have hrec : dmRecords { columns := cols, rows := [] } = .ok [] := by
    unfold dmRecords dfNormalizeDates
    by_cases h : "date" ∈ cols
    · rw [if_pos h]; rfl
    · rw [if_neg h]; rfl
  rw [save_daily_metrics_eq (init_db store) _ [] hrec (by rfl)]
  rfl

/-! ### Claim C10 -/

/-- Claim C10: each store operation touches only its own relation —
`save_daily_metrics` leaves `signal_events` and `tickers` unchanged, and
`save_signal_events` leaves `daily_metrics` and `tickers` unchanged. -/
theorem claim10_frame_effects (execFail : Nat → Bool) (db : DB)
    (df : DataFrame) (t : String) (evs : List EventDict) :
    (∀ db2, save_daily_metrics_exec execFail db df = .ok db2 →
      db2.signal_events = db.signal_events ∧ db2.tickers = db.tickers) ∧
    (∀ db2, save_signal_events_exec execFail db t evs = .ok db2 →
      db2.daily_metrics = db.daily_metrics ∧ db2.tickers = db.tickers) := by
  constructor
  · intro db2 h
    have hf := saveMetrics_exec_frame execFail db df db2 h
    exact ⟨hf.2, hf.1⟩
  · intro db2 h
    have hf := saveEvents_exec_frame execFail db t evs db2 h
    exact ⟨hf.2, hf.1⟩

/-- Witness for Claim C10: concrete saves on a store seeded with one row in
every table leave the other two tables untouched. -/
theorem claim10_witness :
    (dbC10m.signal_events = dbSeed.signal_events ∧
      dbC10m.tickers = dbSeed.tickers) ∧
    (dbC10e.daily_metrics = dbSeed.daily_metrics ∧
      dbC10e.tickers = dbSeed.tickers) :=
  ⟨(claim10_frame_effects (fun _ => false) dbSeed dfC10 "CCC" []).1
      dbC10m (by rfl),
   (claim10_frame_effects (fun _ => false) dbSeed dfC10 "CCC" [evC10]).2
      dbC10e (by rfl)⟩

/-! ### Claim C9 -/

/-- Counterexample to Claim C9: the first pipeline run for the fresh ticker
`RELIANCE.NS` on a one-bar series commits a metrics row but creates no
Ticker registry record — the `tickers` relation is empty afterwards. -/
theorem claim9_counterexample :
    run_pipeline none "RELIANCE.NS" rawC9 = .ok dbC9 ∧
    dbC9.tickers = [] ∧ rawC9 ≠ [] := by
  refine ⟨by rfl, rfl, by decide⟩

/-- Claim C9 (amended): a pipeline run never writes to the `tickers`
relation — `initialize()` creates the (empty) table and every run leaves the
`tickers` relation exactly as `initialize()` left it; no Ticker registry
record is ever created. -/
theorem claim9_amended_no_ticker_writes (store : Option DB) (t : String)
    (raw : List RawBar) (db2 : DB) (h : run_pipeline store t raw = .ok db2) :
    db2.tickers = (init_db store).tickers := by
  simp only [run_pipeline] at h
  cases h1 : save_daily_metrics (init_db store)
      (metricsToDF t (process_data raw)) with
  | error e => rw [h1] at h; cases h
  | ok db1 =>
    rw [h1] at h
    have f1 := saveMetrics_exec_frame (fun _ => false) (init_db store)
      (metricsToDF t (process_data raw)) db1 h1
    have f2 := saveEvents_exec_frame (fun _ => false) db1 t
      (runEvents (detect_golden_crossover (process_data raw))
        (detect_death_cross (process_data raw))) db2 h
    rw [f2.1, f1.1]

/-- Witness for the amended Claim C9 at a concrete run. -/
theorem claim9_witness : dbC9.tickers = (init_db none).tickers :=
  claim9_amended_no_ticker_writes none "RELIANCE.NS" rawC9 dbC9 (by rfl)

/-! ### Claim C8 -/

theorem windowVals_all_iff (closes : List (Option ℚ)) (n i : Nat) :
    ((windowVals closes n i).all Option.isSome = true) ↔
      ∀ k < n, (closes.getD (i + 1 - n + k) none).isSome = true := by
  unfold windowVals
  rw [List.all_eq_true]
  constructor
  · intro h k hk
    exact h _ (List.mem_map_of_mem _ (List.mem_range.mpr hk))
  · intro h x hx
    rcases List.mem_map.mp hx with ⟨k, hk, hkx⟩
    rw [← hkx]
    exact h k (List.mem_range.mp hk)

theorem smaAt_of_window (closes : List (Option ℚ)) (n i : Nat)
    (h1 : n ≤ i + 1 ∧ i < closes.length)
    (h2 : (windowVals closes n i).all Option.isSome = true) :
    smaAt closes n i
      = some (((windowVals closes n i).map (fun x => x.getD 0)).sum / (n : ℚ)) := by
  unfold smaAt
  rw [if_pos h1, if_pos h2]

theorem smaAt_none_of_not_range (closes : List (Option ℚ)) (n i : Nat)
    (h : ¬(n ≤ i + 1 ∧ i < closes.length)) : smaAt closes n i = none := by
  unfold smaAt
  rw [if_neg h]

theorem smaAt_none_of_window_gap (closes : List (Option ℚ)) (n i : Nat)
    (h2 : (windowVals closes n i).all Option.isSome = false) :
    smaAt closes n i = none := by
  unfold smaAt
  by_cases h1 : n ≤ i + 1 ∧ i < closes.length
  · rw [if_pos h1, if_neg (by rw [h2]; exact Bool.false_ne_true)]
  · rw [if_neg h1]

theorem smaAt_none_of_missing (closes : List (Option ℚ)) (n i j : Nat)
    (hj1 : i + 1 - n ≤ j) (hj2 : j ≤ i)
    (hmiss : closes.getD j none = none) :
    smaAt closes n i = none := by
  by_cases h1 : n ≤ i + 1 ∧ i < closes.length
  · apply smaAt_none_of_window_gap
    cases hb : (windowVals closes n i).all Option.isSome
    · rfl
    · exfalso
      have hk : j - (i + 1 - n) < n := by omega
      have := (windowVals_all_iff closes n i).mp hb (j - (i + 1 - n)) hk
      have heq : i + 1 - n + (j - (i + 1 - n)) = j := by omega
      rw [heq, hmiss] at this
      simp at this
  · exact smaAt_none_of_not_range closes n i h1

theorem windowVals_all_of_present (closes : List (Option ℚ)) (n i : Nat)
    (h1 : n ≤ i + 1) (h2 : i < closes.length)
    (hall : ∀ x ∈ closes, Option.isSome x = true) :
    (windowVals closes n i).all Option.isSome = true := by
  rw [windowVals_all_iff]
  intro k hk
  have hidx : i + 1 - n + k < closes.length := by omega
  rw [List.getD_eq_getElem?_getD, List.getElem?_eq_getElem hidx]
  exact hall _ (List.getElem_mem hidx)

theorem smaAt_isSome_iff (closes : List (Option ℚ)) (n i : Nat)
    (hall : ∀ x ∈ closes, Option.isSome x = true) :
    (smaAt closes n i).isSome = true ↔ (n ≤ i + 1 ∧ i < closes.length) := by
  constructor
  · intro h
    by_contra hc
    rw [smaAt_none_of_not_range closes n i hc] at h
    simp at h
  · rintro ⟨h1, h2⟩
    rw [smaAt_of_window closes n i ⟨h1, h2⟩
      (windowVals_all_of_present closes n i h1 h2 hall)]
    rfl

theorem smaAt_const (closes : List (Option ℚ)) (c : ℚ) (n i : Nat)
    (hn : n ≠ 0) (hc : ∀ x ∈ closes, x = some c)
    (h1 : n ≤ i + 1) (h2 : i < closes.length) :
    smaAt closes n i = some c := by
  have hall : ∀ x ∈ closes, Option.isSome x = true := by
    intro x hx
    rw [hc x hx]
    rfl
  rw [smaAt_of_window closes n i ⟨h1, h2⟩
    (windowVals_all_of_present closes n i h1 h2 hall)]
  have hmap : ∀ y ∈ (windowVals closes n i).map (fun x => x.getD 0), y = c := by
    intro y hy
    rcases List.mem_map.mp hy with ⟨x, hx, hxy⟩
    unfold windowVals at hx
    rcases List.mem_map.mp hx with ⟨k, hk, hkx⟩
    have hkn : k < n := List.mem_range.mp hk
    have hidx : i + 1 - n + k < closes.length := by omega
    rw [← hkx] at hxy
    rw [List.getD_eq_getElem?_getD, List.getElem?_eq_getElem hidx] at hxy
    have := hc _ (List.getElem_mem hidx)
    rw [this] at hxy
    rw [← hxy]
    rfl
  have hlen : ((windowVals closes n i).map (fun x => x.getD 0)).length = n := by
    unfold windowVals
    simp
  rw [List.sum_eq_card_nsmul _ c hmap, hlen, nsmul_eq_mul]
  congr 1
  exact mul_div_cancel_left₀ c (Nat.cast_ne_zero.mpr hn)

theorem process_data_get (raw : List RawBar) (i : Nat) (m : MetricRecord)
    (h : (process_data raw)[i]? = some m) :
    i < raw.length ∧ m.sma50 = smaAt (raw.map RawBar.close) 50 i ∧
      m.sma200 = smaAt (raw.map RawBar.close) 200 i := by
  simp only [process_data] at h
  rw [List.getElem?_map] at h
  cases hr : (List.range raw.length)[i]? with
  | none => rw [hr] at h; cases h
  | some j =>
    rw [hr] at h
    have hlen : i < raw.length := by
      have : i < (List.range raw.length).length := (List.getElem?_eq_some.mp hr).1
      simpa using this
    have hj : j = i := by
      have := List.getElem?_range hlen
      rw [this] at hr
      exact (Option.some.injEq _ _).mp hr.symm
    subst hj
    cases h
    exact ⟨hlen, rfl, rfl⟩

/-! ### Claim C4 -/

/-- Claim C4: over a fully-present close series the Indicator Processor
defines `sma50[i]` exactly when `i ≥ 49` and `sma200[i]` exactly when
`i ≥ 199` (0-indexed), and on a constant close series of value `c` every
defined SMA value equals `c`. -/
theorem claim4_sma_threshold (raw : List RawBar) (i : Nat) (m : MetricRecord)
    (hget : (process_data raw)[i]? = some m) :
    ((∀ b ∈ raw, (RawBar.close b).isSome = true) →
      ((m.sma50.isSome = true ↔ 49 ≤ i) ∧
       (m.sma200.isSome = true ↔ 199 ≤ i))) ∧
    (∀ c : ℚ, (∀ b ∈ raw, RawBar.close b = some c) →
      (m.sma50 = if 49 ≤ i then some c else none) ∧
      (m.sma200 = if 199 ≤ i then some c else none)) := by
  rcases process_data_get raw i m hget with ⟨hlen, h50, h200⟩
  have hlen' : i < (raw.map RawBar.close).length := by simpa using hlen
  constructor
  · intro hall
    have hall' : ∀ x ∈ raw.map RawBar.close, Option.isSome x = true := by
      intro x hx
      rcases List.mem_map.mp hx with ⟨b, hb, hbx⟩
      rw [← hbx]
      exact hall b hb
    constructor
    · rw [h50, smaAt_isSome_iff _ 50 i hall']
      omega
    · rw [h200, smaAt_isSome_iff _ 200 i hall']
      omega
  · intro c hconst
    have hconst' : ∀ x ∈ raw.map RawBar.close, x = some c := by
      intro x hx
      rcases List.mem_map.mp hx with ⟨b, hb, hbx⟩
      rw [← hbx]
      exact hconst b hb
    constructor
    · rw [h50]
      by_cases hi : 49 ≤ i
      · rw [if_pos hi]
        exact smaAt_const _ c 50 i (by omega) hconst' (by omega) hlen'
      · rw [if_neg hi]
        exact smaAt_none_of_not_range _ 50 i (by omega)
    · rw [h200]
      by_cases hi : 199 ≤ i
      · rw [if_pos hi]
        exact smaAt_const _ c 200 i (by omega) hconst' (by omega) hlen'
      · rw [if_neg hi]
        exact smaAt_none_of_not_range _ 200 i (by omega)

/-- Witness for Claim C4: the constant 50-bar series at index 49. -/
theorem claim4_witness :
    mC4.sma50 = (if 49 ≤ 49 then some (7 : ℚ) else none) ∧
    mC4.sma200 = (if 199 ≤ 49 then some (7 : ℚ) else none) :=
  (claim4_sma_threshold raw50 49 mC4 (by rfl)).2 7 (by decide)

/-! ### Claim C5 -/

theorem gapCloses_length : gapCloses.length = 260 := by
  unfold gapCloses
  simp

theorem gapCloses_getD (j : Nat) (h : j < 260) :
    gapCloses.getD j none = if j = 30 then none else some 1 := by
  unfold gapCloses
  rw [List.getD_eq_getElem?_getD, List.getElem?_map, List.getElem?_range h]
  rfl

theorem smaAt_gap_none_iff (n i : Nat) (hi : i < 260) :
    (smaAt gapCloses n i = none) ↔ (i + 1 < n ∨ (i + 1 - n ≤ 30 ∧ 30 ≤ i)) := by
  by_cases h1 : n ≤ i + 1 ∧ i < gapCloses.length
  · have hwin : ((windowVals gapCloses n i).all Option.isSome = true) ↔
        ¬(i + 1 - n ≤ 30 ∧ 30 ≤ i) := by
      rw [windowVals_all_iff]
      constructor
      · intro h hb
        have hk : 30 - (i + 1 - n) < n := by omega
        have := h (30 - (i + 1 - n)) hk
        have heq : i + 1 - n + (30 - (i + 1 - n)) = 30 := by omega
        rw [heq, gapCloses_getD 30 (by omega)] at this
        simp at this
      · intro hb k hk
        have hidx : i + 1 - n + k < 260 := by omega
        rw [gapCloses_getD _ hidx]
        have hne : i + 1 - n + k ≠ 30 := by omega
        rw [if_neg hne]
        rfl
    unfold smaAt
    rw [if_pos h1]
    by_cases hall : (windowVals gapCloses n i).all Option.isSome = true
    · rw [if_pos hall]
      have hno : ¬(i + 1 - n ≤ 30 ∧ 30 ≤ i) := hwin.mp hall
      constructor
      · intro h; cases h
      · intro h
        rcases h with h | h
        · omega
        · exact absurd h hno
    · rw [if_neg hall]
      have hyes : i + 1 - n ≤ 30 ∧ 30 ≤ i := by
        by_contra hb
        exact hall (hwin.mpr hb)
      exact ⟨fun _ => Or.inr hyes, fun _ => rfl⟩
  · rw [smaAt_none_of_not_range gapCloses n i h1]
    rw [gapCloses_length] at h1
    constructor
    · intro
      left
      omega
    · intro
      rfl

/-- Counterexample to Claim C5 as stated: in the 260-day gap scenario,
`sma50` at index 0 is undefined even though 0 is outside the claimed
exact range 30..79 (indices below the window threshold are undefined
regardless of the gap). -/
theorem claim5_counterexample :
    smaAt gapCloses 50 0 = none ∧ ¬(30 ≤ (0 : ℕ) ∧ (0 : ℕ) ≤ 79) := by
  constructor
  · exact smaAt_none_of_not_range gapCloses 50 0 (fun h => absurd h.1 (by omega))
  · decide

/-- Claim C5 (amended): a missing close anywhere inside the trailing window
ending at `i` makes the SMA at `i` undefined (missing values are never
skipped), and in the 260-day scenario with the single gap at index 30,
`sma50` is undefined exactly at indices 0..79 (0..48 lack a full window,
49..79 have a window spanning the gap) and `sma200` exactly at indices
0..229. -/
theorem claim5_gap_propagation :
    (∀ (closes : List (Option ℚ)) (n i j : Nat),
      i + 1 - n ≤ j → j ≤ i → closes.getD j none = none →
      smaAt closes n i = none) ∧
    (∀ i < 260, (smaAt gapCloses 50 i = none ↔ i ≤ 79) ∧
      (smaAt gapCloses 200 i = none ↔ i ≤ 229)) := by
  constructor
  · intro closes n i j hj1 hj2 hmiss
    exact smaAt_none_of_missing closes n i j hj1 hj2 hmiss
  · intro i hi
    constructor
    · rw [smaAt_gap_none_iff 50 i hi]
      omega
    · rw [smaAt_gap_none_iff 200 i hi]
      omega

/-- Witness for the amended Claim C5 at concrete indices. -/
theorem claim5_witness :
    smaAt [none] 1 0 = none ∧
    (smaAt gapCloses 50 100 = none ↔ (100 : ℕ) ≤ 79) :=
  ⟨claim5_gap_propagation.1 [none] 1 0 0 (by decide) (by decide) (by rfl),
   (claim5_gap_propagation.2 100 (by decide)).1⟩

/-! ### Claim C6 -/

theorem mem_detect_golden (s : List MetricRecord) (d : Nat) :
    d ∈ detect_golden_crossover s ↔
      ∃ j p c, s[j]? = some p ∧ s[j + 1]? = some c ∧
        goldenCond p c = true ∧ c.date = d := by
  unfold detect_golden_crossover
  rw [List.mem_filterMap]
  constructor
  · rintro ⟨i, hi, hstep⟩
    rcases i with _ | j
    · cases hstep
    · have hstep2 : (match s[j]?, s[j + 1]? with
        | some p, some c => if goldenCond p c = true then some c.date else none
        | _, _ => none) = some d := hstep
      cases hp : s[j]? with
      | none => rw [hp] at hstep2; cases hstep2
      | some p =>
        cases hc : s[j + 1]? with
        | none => rw [hp, hc] at hstep2; cases hstep2
        | some c =>
          rw [hp, hc] at hstep2
          have hstep3 : (if goldenCond p c = true then some c.date else none)
              = some d := hstep2
          by_cases hcond : goldenCond p c = true
          · rw [if_pos hcond] at hstep3
            exact ⟨j, p, c, hp, hc, hcond, (Option.some.injEq _ _).mp hstep3⟩
          · rw [if_neg hcond] at hstep3
            cases hstep3
  · rintro ⟨j, p, c, hp, hc, hcond, hd⟩
    refine ⟨j + 1, ?_, ?_⟩
    · have : j + 1 < s.length := (List.getElem?_eq_some.mp hc).1
      exact List.mem_range.mpr this
    · show (match s[j]?, s[j + 1]? with
        | some p, some c => if goldenCond p c = true then some c.date else none
        | _, _ => none) = some d
      rw [hp, hc]
      show (if goldenCond p c = true then some c.date else none) = some d
      rw [if_pos hcond, hd]

theorem mem_detect_death (s : List MetricRecord) (d : Nat) :
    d ∈ detect_death_cross s ↔
      ∃ j p c, s[j]? = some p ∧ s[j + 1]? = some c ∧
        deathCond p c = true ∧ c.date = d := by
  unfold detect_death_cross
  rw [List.mem_filterMap]
  constructor
  · rintro ⟨i, hi, hstep⟩
    rcases i with _ | j
    · cases hstep
    · have hstep2 : (match s[j]?, s[j + 1]? with
        | some p, some c => if deathCond p c = true then some c.date else none
        | _, _ => none) = some d := hstep
      cases hp : s[j]? with
      | none => rw [hp] at hstep2; cases hstep2
      | some p =>
        cases hc : s[j + 1]? with
        | none => rw [hp, hc] at hstep2; cases hstep2
        | some c =>
          rw [hp, hc] at hstep2
          have hstep3 : (if deathCond p c = true then some c.date else none)
              = some d := hstep2
          by_cases hcond : deathCond p c = true
          · rw [if_pos hcond] at hstep3
            exact ⟨j, p, c, hp, hc, hcond, (Option.some.injEq _ _).mp hstep3⟩
          · rw [if_neg hcond] at hstep3
            cases hstep3
  · rintro ⟨j, p, c, hp, hc, hcond, hd⟩
    refine ⟨j + 1, ?_, ?_⟩
    · have : j + 1 < s.length := (List.getElem?_eq_some.mp hc).1
      exact List.mem_range.mpr this
    · show (match s[j]?, s[j + 1]? with
        | some p, some c => if deathCond p c = true then some c.date else none
        | _, _ => none) = some d
      rw [hp, hc]
      show (if deathCond p c = true then some c.date else none) = some d
      rw [if_pos hcond, hd]

theorem not_golden_and_death (p c : MetricRecord) :
    ¬(goldenCond p c = true ∧ deathCond p c = true) := by
  rintro ⟨hg, hd⟩
  unfold goldenCond at hg
  unfold deathCond at hd
  cases h1 : p.sma50 with
  | none => rw [h1] at hg; cases hg
  | some a =>
    cases h2 : p.sma200 with
    | none => rw [h1, h2] at hg; cases hg
    | some b =>
      cases h3 : c.sma50 with
      | none => rw [h1, h2, h3] at hg; cases hg
      | some x =>
        cases h4 : c.sma200 with
        | none => rw [h1, h2, h3, h4] at hg; cases hg
        | some y =>
          rw [h1, h2, h3, h4] at hg hd
          have hg2 : y < x := by
            have := (Bool.and_eq_true _ _).mp hg
            exact of_decide_eq_true this.2
          have hd2 : x < y := by
            have := (Bool.and_eq_true _ _).mp hd
            exact of_decide_eq_true this.2
          exact lt_irrefl x (lt_trans hd2 hg2)

/-- Claim C6: over a MetricRecord series with no duplicate dates (the
data-model ordering invariant), a date reported as a golden cross is never
also reported as a death cross — the two transition conditions are mutually
exclusive at every index. -/
theorem claim6_crossover_exclusive (s : List MetricRecord)
    (hnd : (s.map MetricRecord.date).Nodup) (d : Nat)
    (hg : d ∈ detect_golden_crossover s) : d ∉ detect_death_cross s := by
  intro hd
  rcases (mem_detect_golden s d).mp hg with ⟨j, p, c, hp, hc, hgc, hcd⟩
  rcases (mem_detect_death s d).mp hd with ⟨j2, p2, c2, hp2, hc2, hdc, hcd2⟩
  have hmap1 : (s.map MetricRecord.date)[j + 1]? = some d := by
    rw [List.getElem?_map, hc]
    simp [hcd]
  have hmap2 : (s.map MetricRecord.date)[j2 + 1]? = some d := by
    rw [List.getElem?_map, hc2]
    simp [hcd2]
  have hlt : j + 1 < (s.map MetricRecord.date).length :=
    (List.getElem?_eq_some.mp hmap1).1
  have hj : j + 1 = j2 + 1 :=
    List.getElem?_inj hlt hnd (by rw [hmap1, hmap2])
  have hj' : j = j2 := by omega
  subst hj'
  rw [hp] at hp2
  rw [hc] at hc2
  have hpp : p = p2 := (Option.some.injEq _ _).mp hp2
  have hcc : c = c2 := (Option.some.injEq _ _).mp hc2
  subst hpp
  subst hcc
  exact not_golden_and_death p c ⟨hgc, hdc⟩

/-- Witness for Claim C6: the concrete two-record series has a golden cross
at date 20, so 20 is not reported as a death cross. -/
theorem claim6_witness : (20 : Nat) ∉ detect_death_cross sC6 :=
  claim6_crossover_exclusive sC6 (by decide) 20 (by decide)
